import Mathlib

/-!
# Verification of the COVID19-BSIR value-iteration notebook

A shallow embedding of the notebook `VI-notebook-checkpoint.ipynb`
(value iteration for optimal two-group lockdown in a behavioral SIR model)
together with theorems settling the frozen specification claims.

Numerical conventions of the embedding:
* exact arithmetic replaces floating point: the Bellman-sweep bookkeeping
  (`T`, `solve_model`) is embedded over `ℚ`, while the SIR dynamics and the
  cost model, which use the exponential function, are embedded over `ℝ`;
* the SciPy optimizer `scipy.optimize.minimize` is an external library and is
  modelled as an explicit function parameter (`minimize` in `minimize_wrap`,
  and the per-cell result function `opt` in `T`); its result at a grid cell is
  a pair (minimizer, minimum);
* the uninitialized array `np.empty_like(v)` is modelled with `Option`:
  `none` stands for a cell that has not been written;
* printed output of `solve_model` is modelled as a list of `Msg` values.
-/

namespace BSIR

section Params

variable {α : Type} [LinearOrderedField α]

/-- Notebook cell `Parameter Assignments`: `dt = 1` (one day). -/
def dt : α := 1

/-- `gamma = 1.0/18`, recovery/death rate. -/
def gamma : α := 1/18

/-- `theta = 0.75`, level of obedience. -/
def theta : α := 3/4

/-- `L_max = np.array([0.7, 1])`, max amount of lockdown possible. -/
def L_max : Fin 2 → α := ![7/10, 1]

/-- `p = 1`, immunity passport flag (1 = no passport). -/
def p : α := 1

/-- `herd_threshold = 0.6`. -/
def herd_threshold : α := 3/5

/-- `P = np.array([0.818, 0.182])`, population share of each group. -/
def P : Fin 2 → α := ![818/1000, 182/1000]

/-- `w = np.array([1, 0])`, productivity in normal times. -/
def w : Fin 2 → α := ![1, 0]

/-- `career = np.array([20*365, 0])`, length of remaining career. -/
def career : Fin 2 → α := ![20 * 365, 0]

/-- `ir = 0.00001/365`, daily interest rate. -/
def ir : α := (1/100000)/365

/-- `chi = np.ones(2) * 10`, non-pecuniary value of life. -/
def chi : Fin 2 → α := ![10, 10]

/-- `ICU_max = 0.0003`, ICU capacity. -/
def ICU_max : α := 3/10000

/-- `iota = np.array([0.02586, 0.074])`, share of infected sent to ICU. -/
def iota : Fin 2 → α := ![2586/100000, 74/1000]

/-- `nu = 0.667/365`, probability of vaccine/cure arrival. -/
def nu : α := (667/1000)/365

/-- `beta_0 = 0.2`, initial rate of viral transmission. -/
def beta_0 : α := 2/10

/-- `rho_0 = 0.75`, level of inter-group interaction. -/
def rho_0 : α := 3/4

/-- `alpha_I = 1`. -/
def alpha_I : α := 1

/-- `wfh = 0.40`, share able to work from home. -/
def wfh : α := 4/10

/-- `alpha_L = 0.00001`, indirect deaths by lockdown level. -/
def alpha_L : α := 1/100000

/-- `alpha_E = 0.42`, employment loss. -/
def alpha_E : α := 42/100

/-- `eta = 10000`, penalty for exceeding ICU capacity. -/
def eta : α := 10000

/-- `F = 1`, constant for future deaths due to missed screenings. -/
def F : α := 1

/-- `np.linspace(low, high, count)`: `count` evenly spaced points from `low`
to `high` inclusive, `linspace low high count i = low + i*(high-low)/(count-1)`. -/
def linspace (a b : α) (n : ℕ) (i : ℕ) : α :=
  a + (i : α) * (b - a) / ((n : α) - 1)

/-- `Model.__init__`: builds the susceptible grid `np.linspace(1e-4, 1, grid_size)`
and the infected grid `np.linspace(1e-4, 0.5, grid_size)`.  The constructor also
stores the injected functions `u` and `f`; it performs no validation of
`grid_size` whatsoever, so construction is a total function. -/
def mkModel (grid_size : ℕ) : (ℕ → α) × (ℕ → α) :=
  (linspace (1/10000) 1 grid_size, linspace (1/10000) (1/2) grid_size)

end Params

/-! ## The Bellman sweep `T`

`T(v, og)` loops `for i: for j: for k: for l:` over the four grid axes
(susceptible-young, susceptible-old, infected-young, infected-old), builds the
state matrix `bellman = [[gS i, gS j], [gI k, gI l]]` and classifies each cell
by the per-group column sums `b2 = np.sum(bellman, axis=0)` and the total mass
`np.sum(bellman)`.  The per-cell optimizer call
`minimize_wrap(og.obj_func, bds, (bellman, v))` is deterministic given the cell
and the previous value array, and is modelled by the function `opt` from cell
indices to (minimizer, minimum) pairs. -/

/-- A 4-tuple of grid indices `(i, j, k, l)`. -/
abbrev Idx : Type := ℕ × ℕ × ℕ × ℕ

/-- The traversal order of the nested loops of `T`: `i` outermost (susceptible
young), then `j` (susceptible old), then `k` (infected young), then `l`
(infected old, innermost). -/
def idxList (n : ℕ) : List Idx :=
  (List.range n) ×ˢ ((List.range n) ×ˢ ((List.range n) ×ˢ (List.range n)))

/-- The admissibility test of `T`:
`b2[0] <= P[0] + 0.02 and b2[1] <= P[1] + 0.02` where `b2` holds the per-group
column sums of the state matrix.  Cells failing it are exterior. -/
def isAdmissible (gS gI : ℕ → ℚ) (q : Idx) : Prop :=
  gS q.1 + gI q.2.2.1 ≤ P 0 + 2/100 ∧ gS q.2.1 + gI q.2.2.2 ≤ P 1 + 2/100

instance (gS gI : ℕ → ℚ) (q : Idx) : Decidable (isAdmissible gS gI q) :=
  inferInstanceAs (Decidable (_ ∧ _))

/-- The herd-immunity test of `T`: `np.sum(bellman) >= 1 - herd_threshold`.
Admissible cells failing it are forced to zero value and zero control. -/
def hasMass (gS gI : ℕ → ℚ) (q : Idx) : Prop :=
  1 - herd_threshold ≤ gS q.1 + gS q.2.1 + gI q.2.2.1 + gI q.2.2.2

instance (gS gI : ℕ → ℚ) (q : Idx) : Decidable (hasMass gS gI q) :=
  inferInstanceAs (Decidable (_ ≤ _))

/-- An interior-admissible cell: within the population bound and with enough
mass; only these cells invoke the optimizer. -/
def isInterior (gS gI : ℕ → ℚ) (q : Idx) : Prop :=
  isAdmissible gS gI q ∧ hasMass gS gI q

instance (gS gI : ℕ → ℚ) (q : Idx) : Decidable (isInterior gS gI q) :=
  inferInstanceAs (Decidable (_ ∧ _))

/-- The mutable state threaded through the nested loops of `T`: the new value
array `v_new` (`np.empty_like(v)`, so entries are `Option`: `none` models an
uninitialized entry), the new policy array `v_greedy` (`np.zeros`), and the
tracked index `sy, so, iy, io` of the most recently optimized cell. -/
structure SweepState where
  vNew : Idx → Option ℚ
  vGreedy : Idx → ℚ × ℚ
  tracker : Idx

/-- One iteration of the innermost loop body of `T` at cell `q`:
* interior-admissible: store the optimizer result and update the tracker;
* admissible but below the mass threshold (post-herd): store value `0` and
  policy `np.zeros(2)`, tracker unchanged;
* exterior: copy `v_new` and `v_greedy` from the tracked index, tracker
  unchanged. -/
def Tstep (gS gI : ℕ → ℚ) (opt : Idx → (ℚ × ℚ) × ℚ) (st : SweepState) (q : Idx) :
    SweepState :=
  if isAdmissible gS gI q then
    if hasMass gS gI q then
      { vNew := fun r => if r = q then some (opt q).2 else st.vNew r,
        vGreedy := fun r => if r = q then (opt q).1 else st.vGreedy r,
        tracker := q }
    else
      { vNew := fun r => if r = q then some 0 else st.vNew r,
        vGreedy := fun r => if r = q then (0, 0) else st.vGreedy r,
        tracker := st.tracker }
  else
    { vNew := fun r => if r = q then st.vNew st.tracker else st.vNew r,
      vGreedy := fun r => if r = q then st.vGreedy st.tracker else st.vGreedy r,
      tracker := st.tracker }

/-- The state at entry of the loops of `T`: `v_new = np.empty_like(v)` (all
entries uninitialized), `v_greedy = np.zeros(...)`, `sy, so, iy, io = 0,0,0,0`. -/
def initState : SweepState :=
  { vNew := fun _ => none, vGreedy := fun _ => (0, 0), tracker := (0, 0, 0, 0) }

/-- Folding the loop body over a list of cells in order. -/
def sweep (gS gI : ℕ → ℚ) (opt : Idx → (ℚ × ℚ) × ℚ) (st : SweepState)
    (l : List Idx) : SweepState :=
  l.foldl (Tstep gS gI opt) st

/-- The Bellman operator `T(v, og)` as a whole: run the loop body over all
`n⁴` cells in traversal order.  The function returns the final loop state; the
notebook returns the pair `(v_greedy, v_new)` of its components. -/
def T (n : ℕ) (gS gI : ℕ → ℚ) (opt : Idx → (ℚ × ℚ) × ℚ) : SweepState :=
  sweep gS gI opt initState (idxList n)

/-- The index of the most recently visited interior-admissible cell of a list
of cells, starting from the default `d` (the initial tracker `0,0,0,0`).  This
is exactly how the variables `sy, so, iy, io` of `T` evolve. -/
def lastInterior (gS gI : ℕ → ℚ) : List Idx → Idx → Idx
  | [], d => d
  | q :: l, d => lastInterior gS gI l (if isInterior gS gI q then q else d)

section SweepLemmas

variable (gS gI : ℕ → ℚ) (opt : Idx → (ℚ × ℚ) × ℚ)

lemma Tstep_vNew_ne {st : SweepState} {q r : Idx} (h : r ≠ q) :
    (Tstep gS gI opt st q).vNew r = st.vNew r := by
  unfold Tstep
  split_ifs <;> simp [h]

lemma Tstep_vGreedy_ne {st : SweepState} {q r : Idx} (h : r ≠ q) :
    (Tstep gS gI opt st q).vGreedy r = st.vGreedy r := by
  unfold Tstep
  split_ifs <;> simp [h]

lemma Tstep_tracker (st : SweepState) (q : Idx) :
    (Tstep gS gI opt st q).tracker =
      if isInterior gS gI q then q else st.tracker := by
  unfold Tstep isInterior
  split_ifs with h1 h2 h3 <;> first | rfl | simp_all

lemma Tstep_interior (st : SweepState) {q : Idx} (h : isInterior gS gI q) :
    (Tstep gS gI opt st q).vNew q = some (opt q).2 ∧
      (Tstep gS gI opt st q).vGreedy q = (opt q).1 := by
  unfold Tstep
  rw [if_pos h.1, if_pos h.2]
  simp

lemma Tstep_postherd (st : SweepState) {q : Idx} (h1 : isAdmissible gS gI q)
    (h2 : ¬ hasMass gS gI q) :
    (Tstep gS gI opt st q).vNew q = some 0 ∧
      (Tstep gS gI opt st q).vGreedy q = (0, 0) ∧
      (Tstep gS gI opt st q).tracker = st.tracker := by
  unfold Tstep
  rw [if_pos h1, if_neg h2]
  simp

lemma Tstep_exterior (st : SweepState) {q : Idx} (h : ¬ isAdmissible gS gI q) :
    (Tstep gS gI opt st q).vNew q = st.vNew st.tracker ∧
      (Tstep gS gI opt st q).vGreedy q = st.vGreedy st.tracker ∧
      (Tstep gS gI opt st q).tracker = st.tracker := by
  unfold Tstep
  rw [if_neg h]
  simp

lemma sweep_nil (st : SweepState) : sweep gS gI opt st [] = st := rfl

lemma sweep_cons (st : SweepState) (q : Idx) (l : List Idx) :
    sweep gS gI opt st (q :: l) = sweep gS gI opt (Tstep gS gI opt st q) l := rfl

lemma sweep_append (st : SweepState) (l₁ l₂ : List Idx) :
    sweep gS gI opt st (l₁ ++ l₂) = sweep gS gI opt (sweep gS gI opt st l₁) l₂ := by
  simp [sweep, List.foldl_append]

lemma sweep_vNew_of_not_mem (st : SweepState) {q : Idx} :
    ∀ {l : List Idx}, q ∉ l → (sweep gS gI opt st l).vNew q = st.vNew q ∧
      (sweep gS gI opt st l).vGreedy q = st.vGreedy q := by
  intro l
  induction l generalizing st with
  | nil => intro _; exact ⟨rfl, rfl⟩
  | cons r l ih =>
    intro h
    rw [List.mem_cons, not_or] at h
    rw [sweep_cons]
    rcases ih (Tstep gS gI opt st r) h.2 with ⟨h1, h2⟩
    exact ⟨h1.trans (Tstep_vNew_ne gS gI opt h.1),
      h2.trans (Tstep_vGreedy_ne gS gI opt h.1)⟩

lemma sweep_tracker (st : SweepState) :
    ∀ l : List Idx, (sweep gS gI opt st l).tracker = lastInterior gS gI l st.tracker := by
  intro l
  induction l generalizing st with
  | nil => rfl
  | cons q l ih =>
    rw [sweep_cons, ih, lastInterior]
    congr 1
    rw [Tstep_tracker]

lemma lastInterior_of_no_interior {d : Idx} :
    ∀ {l : List Idx}, (∀ r ∈ l, ¬ isInterior gS gI r) →
      lastInterior gS gI l d = d := by
  intro l
  induction l generalizing d with
  | nil => intro _; rfl
  | cons q l ih =>
    intro h
    rw [lastInterior, if_neg (h q (List.mem_cons_self q l))]
    exact ih fun r hr => h r (List.mem_cons_of_mem q hr)

lemma lastInterior_spec {d : Idx} :
    ∀ {l : List Idx}, (∃ r ∈ l, isInterior gS gI r) →
      lastInterior gS gI l d ∈ l ∧ isInterior gS gI (lastInterior gS gI l d) := by
  intro l
  induction l generalizing d with
  | nil => rintro ⟨r, hr, _⟩; exact absurd hr (List.not_mem_nil r)
  | cons q l ih =>
    intro h
    by_cases hl : ∃ r ∈ l, isInterior gS gI r
    · rcases ih (d := if isInterior gS gI q then q else d) hl with ⟨h1, h2⟩
      exact ⟨List.mem_cons_of_mem q h1, h2⟩
    · push_neg at hl
      have hq : isInterior gS gI q := by
        rcases h with ⟨r, hr, hri⟩
        rcases List.mem_cons.1 hr with rfl | hr
        · exact hri
        · exact absurd hri (hl r hr)
      rw [lastInterior, if_pos hq, lastInterior_of_no_interior gS gI hl]
      exact ⟨List.mem_cons_self q l, hq⟩

/-- Each cell is visited once, so the value written at a cell survives to the
end of the sweep: an interior-admissible cell of a duplicate-free cell list
ends up holding exactly the optimizer result for that cell. -/
lemma sweep_interior_written (st : SweepState) {l : List Idx} {q : Idx}
    (hnd : l.Nodup) (hq : q ∈ l) (hint : isInterior gS gI q) :
    (sweep gS gI opt st l).vNew q = some (opt q).2 ∧
      (sweep gS gI opt st l).vGreedy q = (opt q).1 := by
  rcases List.append_of_mem hq with ⟨l₁, l₂, rfl⟩
  have hq2 : q ∉ l₂ := (List.nodup_cons.1 hnd.of_append_right).1
  rw [sweep_append, sweep_cons]
  rcases sweep_vNew_of_not_mem gS gI opt
    (Tstep gS gI opt (sweep gS gI opt st l₁) q) hq2 with ⟨h1, h2⟩
  rcases Tstep_interior gS gI opt (sweep gS gI opt st l₁) hint with ⟨h3, h4⟩
  exact ⟨h1.trans h3, h2.trans h4⟩

/-- A post-herd cell (admissible but below the mass threshold) of a
duplicate-free cell list ends up holding value `0` and policy `(0, 0)`. -/
lemma sweep_postherd_written (st : SweepState) {l : List Idx} {q : Idx}
    (hnd : l.Nodup) (hq : q ∈ l) (h1 : isAdmissible gS gI q)
    (h2 : ¬ hasMass gS gI q) :
    (sweep gS gI opt st l).vNew q = some 0 ∧
      (sweep gS gI opt st l).vGreedy q = (0, 0) := by
  rcases List.append_of_mem hq with ⟨l₁, l₂, rfl⟩
  have hq2 : q ∉ l₂ := (List.nodup_cons.1 hnd.of_append_right).1
  rw [sweep_append, sweep_cons]
  rcases sweep_vNew_of_not_mem gS gI opt
    (Tstep gS gI opt (sweep gS gI opt st l₁) q) hq2 with ⟨h3, h4⟩
  rcases Tstep_postherd gS gI opt (sweep gS gI opt st l₁) h1 h2 with ⟨h5, h6, _⟩
  exact ⟨h3.trans h5, h4.trans h6⟩

lemma nodup_idxList (n : ℕ) : (idxList n).Nodup :=
  (List.nodup_range n).product ((List.nodup_range n).product
    ((List.nodup_range n).product (List.nodup_range n)))

lemma mem_idxList {n : ℕ} {q : Idx} :
    q ∈ idxList n ↔ q.1 < n ∧ q.2.1 < n ∧ q.2.2.1 < n ∧ q.2.2.2 < n := by
  obtain ⟨i, j, k, l⟩ := q
  simp [idxList]

end SweepLemmas

/-! ## Claim C1: exterior-cell inheritance -/

/-- A list of cells contains an interior-admissible cell. -/
def hasInteriorCell (gS gI : ℕ → ℚ) (l : List Idx) : Prop :=
  ∃ r ∈ l, isInterior gS gI r

/-- The post-herd branch of `T` leaves the tracked index `sy, so, iy, io`
unchanged. -/
def postHerdKeepsTracker (gS gI : ℕ → ℚ) (opt : Idx → (ℚ × ℚ) × ℚ) : Prop :=
  ∀ (st : SweepState) (r : Idx), isAdmissible gS gI r → ¬ hasMass gS gI r →
    (Tstep gS gI opt st r).tracker = st.tracker

/-- C1.  In the Bellman sweep `T`, an exterior cell (one violating the
per-group population bound) receives exactly the value and the policy of the
most recently optimized interior-admissible cell of the traversal prefix
before it (formalized by `lastInterior`, the fixed nested traversal order
being `idxList`: susceptible-young outermost, then susceptible-old, then
infected-young, then infected-old), provided such a cell exists; both the
stored optimizer result of that cell and the final array entries of that cell
coincide with the exterior entries.  Moreover post-herd cells never update the
tracked index. -/
theorem C1_exterior_inheritance (n : ℕ) (gS gI : ℕ → ℚ)
    (opt : Idx → (ℚ × ℚ) × ℚ) (pre suf : List Idx) (q : Idx)
    (hdec : idxList n = pre ++ q :: suf)
    (hext : ¬ isAdmissible gS gI q)
    (hpre : hasInteriorCell gS gI pre) :
    isInterior gS gI (lastInterior gS gI pre (0, 0, 0, 0)) ∧
    lastInterior gS gI pre (0, 0, 0, 0) ∈ pre ∧
    (T n gS gI opt).vNew q = some (opt (lastInterior gS gI pre (0, 0, 0, 0))).2 ∧
    (T n gS gI opt).vGreedy q = (opt (lastInterior gS gI pre (0, 0, 0, 0))).1 ∧
    (T n gS gI opt).vNew q = (T n gS gI opt).vNew (lastInterior gS gI pre (0, 0, 0, 0)) ∧
    (T n gS gI opt).vGreedy q =
      (T n gS gI opt).vGreedy (lastInterior gS gI pre (0, 0, 0, 0)) ∧
    postHerdKeepsTracker gS gI opt := by
  have hnd : (pre ++ q :: suf).Nodup := hdec ▸ nodup_idxList n
  rcases lastInterior_spec gS gI (d := ((0, 0, 0, 0) : Idx)) hpre with ⟨hjmem, hjint⟩
  set j := lastInterior gS gI pre (0, 0, 0, 0) with hj
  have hqsuf : q ∉ suf := (List.nodup_cons.1 hnd.of_append_right).1
  have htr : (sweep gS gI opt initState pre).tracker = j := by
    rw [sweep_tracker]; rfl
  have hjval := sweep_interior_written gS gI opt initState
    hnd.of_append_left hjmem hjint
  have hfin : T n gS gI opt = sweep gS gI opt
      (Tstep gS gI opt (sweep gS gI opt initState pre) q) suf := by
    rw [T, hdec, sweep_append, sweep_cons]
  rcases sweep_vNew_of_not_mem gS gI opt
    (Tstep gS gI opt (sweep gS gI opt initState pre) q) hqsuf with ⟨h1, h2⟩
  rcases Tstep_exterior gS gI opt (sweep gS gI opt initState pre) hext with
    ⟨h3, h4, _⟩
  have hvq : (T n gS gI opt).vNew q = some (opt j).2 := by
    rw [hfin, h1, h3, htr, hjval.1]
  have hgq : (T n gS gI opt).vGreedy q = (opt j).1 := by
    rw [hfin, h2, h4, htr, hjval.2]
  have hjidx : j ∈ idxList n := by
    rw [hdec]; exact List.mem_append_left _ hjmem
  have hjfin := sweep_interior_written gS gI opt initState
    (nodup_idxList n) hjidx hjint
  refine ⟨hjint, hjmem, hvq, hgq, ?_, ?_, ?_⟩
  · rw [hvq, (show (T n gS gI opt).vNew j = some (opt j).2 from hjfin.1)]
  · rw [hgq, (show (T n gS gI opt).vGreedy j = (opt j).1 from hjfin.2)]
  · intro st r h1 h2
    exact (Tstep_postherd gS gI opt st h1 h2).2.2

/-- The susceptible grid of a model with `grid_size = 2`: the two points
`1e-4` and `1`. -/
def gridS2 : ℕ → ℚ := (mkModel 2).1

/-- The infected grid of a model with `grid_size = 2`: the two points
`1e-4` and `0.5`. -/
def gridI2 : ℕ → ℚ := (mkModel 2).2

/-- A concrete stand-in for the per-cell optimizer result, returning the
in-box control `(1/2, 1/3)` with value `7` everywhere. -/
def optA : Idx → (ℚ × ℚ) × ℚ := fun _ => ((1/2, 1/3), 7)

/-- The traversal prefix before the exterior cell `(0,0,1,1)` on the `2×2×2×2`
grid; its last interior-admissible cell is the corner `(0,0,1,0)`. -/
def pre1 : List Idx := [(0, 0, 0, 0), (0, 0, 0, 1), (0, 0, 1, 0)]

/-- The traversal suffix after the exterior cell `(0,0,1,1)` on the
`2×2×2×2` grid. -/
def suf1 : List Idx :=
  [(0, 1, 0, 0), (0, 1, 0, 1), (0, 1, 1, 0), (0, 1, 1, 1),
   (1, 0, 0, 0), (1, 0, 0, 1), (1, 0, 1, 0), (1, 0, 1, 1),
   (1, 1, 0, 0), (1, 1, 0, 1), (1, 1, 1, 0), (1, 1, 1, 1)]

theorem C1_exterior_inheritance_witness :
    idxList 2 = pre1 ++ ((0, 0, 1, 1) : Idx) :: suf1 ∧
    ¬ isAdmissible gridS2 gridI2 (0, 0, 1, 1) ∧
    hasInteriorCell gridS2 gridI2 pre1 ∧
    (isInterior gridS2 gridI2 (lastInterior gridS2 gridI2 pre1 (0, 0, 0, 0)) ∧
     lastInterior gridS2 gridI2 pre1 (0, 0, 0, 0) ∈ pre1 ∧
     (T 2 gridS2 gridI2 optA).vNew (0, 0, 1, 1) =
       some (optA (lastInterior gridS2 gridI2 pre1 (0, 0, 0, 0))).2 ∧
     (T 2 gridS2 gridI2 optA).vGreedy (0, 0, 1, 1) =
       (optA (lastInterior gridS2 gridI2 pre1 (0, 0, 0, 0))).1 ∧
     (T 2 gridS2 gridI2 optA).vNew (0, 0, 1, 1) =
       (T 2 gridS2 gridI2 optA).vNew (lastInterior gridS2 gridI2 pre1 (0, 0, 0, 0)) ∧
     (T 2 gridS2 gridI2 optA).vGreedy (0, 0, 1, 1) =
       (T 2 gridS2 gridI2 optA).vGreedy (lastInterior gridS2 gridI2 pre1 (0, 0, 0, 0)) ∧
     postHerdKeepsTracker gridS2 gridI2 optA) :=
  ⟨by decide,
   by norm_num [isAdmissible, gridS2, gridI2, mkModel, linspace, P],
   ⟨(0, 0, 1, 0), by decide,
     by norm_num [isInterior, isAdmissible, hasMass, gridS2, gridI2, mkModel,
       linspace, P, herd_threshold]⟩,
   C1_exterior_inheritance 2 gridS2 gridI2 optA pre1 suf1 (0, 0, 1, 1)
     (by decide)
     (by norm_num [isAdmissible, gridS2, gridI2, mkModel, linspace, P])
     ⟨(0, 0, 1, 0), by decide,
       by norm_num [isInterior, isAdmissible, hasMass, gridS2, gridI2, mkModel,
         linspace, P, herd_threshold]⟩⟩

/-! ## Claim C2: post-herd cells -/

/-- C2.  A grid cell that satisfies the per-group population bound but whose
aggregate state mass is strictly below `1 - herd_threshold` receives value `0`
and the zero policy vector from the Bellman sweep, for every per-cell
optimizer result function `opt` whatsoever — the optimizer is not consulted
for such a cell. -/
theorem C2_postherd_zero (n : ℕ) (gS gI : ℕ → ℚ) (opt : Idx → (ℚ × ℚ) × ℚ)
    (q : Idx) (hmem : q ∈ idxList n) (hadm : isAdmissible gS gI q)
    (hnm : ¬ hasMass gS gI q) :
    (T n gS gI opt).vNew q = some 0 ∧ (T n gS gI opt).vGreedy q = (0, 0) :=
  sweep_postherd_written gS gI opt initState (nodup_idxList n) hmem hadm hnm

theorem C2_postherd_zero_witness :
    ((0, 0, 0, 0) : Idx) ∈ idxList 2 ∧
    isAdmissible gridS2 gridI2 (0, 0, 0, 0) ∧
    ¬ hasMass gridS2 gridI2 (0, 0, 0, 0) ∧
    ((T 2 gridS2 gridI2 optA).vNew (0, 0, 0, 0) = some 0 ∧
     (T 2 gridS2 gridI2 optA).vGreedy (0, 0, 0, 0) = (0, 0)) :=
  ⟨by decide,
   by norm_num [isAdmissible, gridS2, gridI2, mkModel, linspace, P],
   by norm_num [hasMass, gridS2, gridI2, mkModel, linspace, herd_threshold],
   C2_postherd_zero 2 gridS2 gridI2 optA (0, 0, 0, 0) (by decide)
     (by norm_num [isAdmissible, gridS2, gridI2, mkModel, linspace, P])
     (by norm_num [hasMass, gridS2, gridI2, mkModel, linspace, herd_threshold])⟩

/-! ## Claim C6: box constraint on stored policies -/

/-- The control box of `T`: `bds = [(1e-4, L_max[0]), (1e-4, L_max[1])]`; a
policy 2-vector is inside it when each component lies within its bounds. -/
def inControlBox (c : ℚ × ℚ) : Prop :=
  1/10000 ≤ c.1 ∧ c.1 ≤ L_max 0 ∧ 1/10000 ≤ c.2 ∧ c.2 ≤ L_max 1

/-- The per-cell optimizer result respects the control box at every
interior-admissible cell. -/
def optRespectsBox (gS gI : ℕ → ℚ) (opt : Idx → (ℚ × ℚ) × ℚ) : Prop :=
  ∀ r : Idx, isInterior gS gI r → inControlBox (opt r).1

/-- Counterexample to C6 as stated.  On the `2×2×2×2` grid the cell
`(0,0,0,0)` is admissible (it satisfies the per-group population bound), the
optimizer stand-in always returns the in-box control `(1/2, 1/3)`, yet after
the sweep the stored policy at that cell is the zero vector, whose components
are strictly below the lower bound `1e-4` of the control box: an admissible
post-herd cell violates the claimed box property. -/
theorem C6_counterexample :
    isAdmissible gridS2 gridI2 (0, 0, 0, 0) ∧
    optRespectsBox gridS2 gridI2 optA ∧
    (T 2 gridS2 gridI2 optA).vGreedy (0, 0, 0, 0) = (0, 0) ∧
    ¬ inControlBox ((T 2 gridS2 gridI2 optA).vGreedy (0, 0, 0, 0)) := by
  have hadm : isAdmissible gridS2 gridI2 (0, 0, 0, 0) := by
    norm_num [isAdmissible, gridS2, gridI2, mkModel, linspace, P]
  have hnm : ¬ hasMass gridS2 gridI2 (0, 0, 0, 0) := by
    norm_num [hasMass, gridS2, gridI2, mkModel, linspace, herd_threshold]
  have hz : (T 2 gridS2 gridI2 optA).vGreedy (0, 0, 0, 0) = (0, 0) :=
    (sweep_postherd_written gridS2 gridI2 optA initState
      (nodup_idxList 2) (by decide) hadm hnm).2
  refine ⟨hadm, ?_, hz, ?_⟩
  · intro r _
    norm_num [inControlBox, optA, L_max]
  · rw [hz]
    norm_num [inControlBox]

/-- C6, amended.  After a Bellman sweep, the stored policy of every
interior-admissible cell lies within the control box `[1e-4, L_max i]`
componentwise, provided the optimizer returns in-box controls (a property of
the external SciPy optimizer that the code relies on); admissible post-herd
cells instead store the zero vector, which lies below the lower bound. -/
theorem C6_policy_box (n : ℕ) (gS gI : ℕ → ℚ) (opt : Idx → (ℚ × ℚ) × ℚ)
    (hopt : optRespectsBox gS gI opt) (q : Idx) (hmem : q ∈ idxList n)
    (hint : isInterior gS gI q) :
    inControlBox ((T n gS gI opt).vGreedy q) := by
  rw [T, (sweep_interior_written gS gI opt initState
    (nodup_idxList n) hmem hint).2]
  exact hopt q hint

theorem C6_policy_box_witness :
    optRespectsBox gridS2 gridI2 optA ∧
    ((0, 0, 1, 0) : Idx) ∈ idxList 2 ∧
    isInterior gridS2 gridI2 (0, 0, 1, 0) ∧
    inControlBox ((T 2 gridS2 gridI2 optA).vGreedy (0, 0, 1, 0)) :=
  ⟨fun r _ => by norm_num [inControlBox, optA, L_max],
   by decide,
   by norm_num [isInterior, isAdmissible, hasMass, gridS2, gridI2, mkModel,
     linspace, P, herd_threshold],
   C6_policy_box 2 gridS2 gridI2 optA
     (fun r _ => by norm_num [inControlBox, optA, L_max]) (0, 0, 1, 0)
     (by decide)
     (by norm_num [isInterior, isAdmissible, hasMass, gridS2, gridI2, mkModel,
       linspace, P, herd_threshold])⟩

/-! ## The value-iteration loop `solve_model`

`solve_model(og, v0, max_iter, tol=1e-3, verbose=True, print_skip=5)` iterates
`v_greedy, v_new = T(v, og)` while `iter < max_iter and error > tol`, where
`error = np.max(np.abs(v - v_new))`.  The Bellman step `T(·, og)` is
abstracted as the function parameter `step`.  The local `v_greedy` is unbound
until the first iteration runs, modelled by `Option`: if the loop body never
executes, the `return v_greedy, v_new` statement fails, modelled by the
result `none`.  Printed lines are modelled by the `Msg` log. -/

/-- A line printed by `solve_model`:
`f"Error at iteration {iter} is {error}."`, `"Failed to converge!"`, or
`f"Converged in {iter} iterations."`. -/
inductive Msg
  | errorAt (iter : ℕ) (err : ℚ)
  | failedToConverge
  | convergedIn (iter : ℕ)
deriving DecidableEq

/-- A value array over the 4-D index space. -/
abbrev VArr : Type := Idx → ℚ

/-- The sup-norm `np.max(np.abs(v - v_new))` over the `n⁴` grid cells. -/
def supNorm (n : ℕ) (v vn : VArr) : ℚ :=
  ((idxList n).map (fun q => |v q - vn q|)).foldl max 0

/-- The loop-carried state of `solve_model`: the pending `v_greedy` (unbound
before the first iteration), the current `v`, the counter `iter`, the last
`error`, and the printed lines so far. -/
structure LoopState (Vg : Type) where
  greedy : Option Vg
  value : VArr
  iters : ℕ
  error : ℚ
  log : List Msg

/-- The returned data of a successful `solve_model` call, together with the
lines it printed. -/
structure SolveResult (Vg : Type) where
  greedy : Vg
  value : VArr
  iters : ℕ
  error : ℚ
  log : List Msg

/-- The body of the `while` loop of `solve_model`: one Bellman step, the new
sup-norm error, the optional progress line
(`if verbose and iter % print_skip == 0`), then `v = v_new; iter += 1`. -/
def loopNext (step : VArr → Vg × VArr) (n : ℕ) (verbose : Bool)
    (printSkip : ℕ) (st : LoopState Vg) : LoopState Vg :=
  let gv := step st.value
  let e := supNorm n st.value gv.2
  let lg := if verbose = true ∧ st.iters % printSkip = 0 then
      st.log ++ [Msg.errorAt st.iters e]
    else st.log
  ⟨some gv.1, gv.2, st.iters + 1, e, lg⟩

/-- The `while iter < max_iter and error > tol` loop of `solve_model`, with
the remaining budget `max_iter - iter` as fuel. -/
def solveLoop (step : VArr → Vg × VArr) (n : ℕ) (tol : ℚ) (verbose : Bool)
    (printSkip : ℕ) : ℕ → LoopState Vg → LoopState Vg
  | 0, st => st
  | fuel + 1, st =>
    if st.error ≤ tol then st
    else solveLoop step n tol verbose printSkip fuel
      (loopNext step n verbose printSkip st)

/-- `solve_model`: run the loop from `v = v0`, `iter = 0`, `error = tol + 1`,
then print the two closing diagnostics (`"Failed to converge!"` exactly when
`iter == max_iter`; the convergence line when `verbose and iter < max_iter`)
and return `v_greedy, v_new` — which fails (`none`) when the loop body never
ran and `v_greedy` is unbound. -/
def solve_model (step : VArr → Vg × VArr) (n : ℕ) (v0 : VArr) (maxIter : ℕ)
    (tol : ℚ) (verbose : Bool) (printSkip : ℕ) : Option (SolveResult Vg) :=
  let st := solveLoop step n tol verbose printSkip maxIter ⟨none, v0, 0, tol + 1, []⟩
  let lg1 := if st.iters = maxIter then
      st.log ++ [Msg.errorAt st.iters st.error, Msg.failedToConverge]
    else st.log
  let lg2 := if verbose = true ∧ st.iters < maxIter then
      lg1 ++ [Msg.convergedIn st.iters]
    else lg1
  st.greedy.map fun g => ⟨g, st.value, st.iters, st.error, lg2⟩

/-- The pure trace of the iteration: `vIter step k v0` is `v` after `k`
applications of the Bellman step. -/
def vIter (step : VArr → Vg × VArr) : ℕ → VArr → VArr
  | 0, v => v
  | k + 1, v => vIter step k (step v).2

section SolveLemmas

variable {Vg : Type} (step : VArr → Vg × VArr) (n : ℕ) (tol : ℚ)
  (verbose : Bool) (printSkip : ℕ)

lemma vIter_succ (k : ℕ) (v : VArr) :
    vIter step (k + 1) v = (step (vIter step k v)).2 := by
  induction k generalizing v with
  | zero => rfl
  | succ m ih => rw [vIter, ih, vIter]

/-- The loop invariant tying a loop state to the pure trace from `v0`. -/
def LoopInv (step : VArr → Vg × VArr) (n : ℕ) (tol : ℚ) (v0 : VArr)
    (st : LoopState Vg) : Prop :=
  st.value = vIter step st.iters v0 ∧
  (0 < st.iters → st.greedy = some (step (vIter step (st.iters - 1) v0)).1 ∧
    st.error = supNorm n (vIter step (st.iters - 1) v0) (vIter step st.iters v0)) ∧
  (∀ j, 0 < j → j < st.iters →
    tol < supNorm n (vIter step (j - 1) v0) (vIter step j v0))

lemma loopNext_iters (st : LoopState Vg) :
    (loopNext step n verbose printSkip st).iters = st.iters + 1 := rfl

lemma loopNext_value (st : LoopState Vg) :
    (loopNext step n verbose printSkip st).value = (step st.value).2 := rfl

lemma loopNext_greedy (st : LoopState Vg) :
    (loopNext step n verbose printSkip st).greedy = some (step st.value).1 := rfl

lemma loopNext_error (st : LoopState Vg) :
    (loopNext step n verbose printSkip st).error =
      supNorm n st.value (step st.value).2 := rfl

lemma loopNext_log_sub {st : LoopState Vg} {msg : Msg}
    (h : msg ∈ (loopNext step n verbose printSkip st).log) :
    msg ∈ st.log ∨ ∃ i e, msg = Msg.errorAt i e := by
  unfold loopNext at h
  dsimp at h
  split_ifs at h with hv
  · rcases List.mem_append.1 h with h3 | h3
    · exact Or.inl h3
    · exact Or.inr ⟨_, _, List.mem_singleton.1 h3⟩
  · exact Or.inl h

lemma solveLoop_inv {v0 : VArr} :
    ∀ (fuel : ℕ) (st : LoopState Vg), LoopInv step n tol v0 st →
      LoopInv step n tol v0 (solveLoop step n tol verbose printSkip fuel st) := by
  intro fuel
  induction fuel with
  | zero => intro st h; exact h
  | succ m ih =>
    intro st h
    rw [solveLoop]
    split_ifs with he
    · exact h
    · refine ih _ ⟨?_, ?_, ?_⟩
      · rw [loopNext_value, loopNext_iters, h.1, ← vIter_succ]
      · intro _
        rw [loopNext_greedy, loopNext_error, loopNext_iters]
        constructor
        · rw [h.1]
          simp
        · rw [h.1, ← vIter_succ]
          simp
      · intro j hj0 hj
        rw [loopNext_iters] at hj
        rcases Nat.lt_succ_iff_lt_or_eq.1 hj with hj | rfl
        · exact h.2.2 j hj0 hj
        · have h2 := (h.2.1 hj0).2
          rw [← h2]
          exact lt_of_not_le he

lemma solveLoop_iters_ge :
    ∀ (fuel : ℕ) (st : LoopState Vg),
      st.iters ≤ (solveLoop step n tol verbose printSkip fuel st).iters := by
  intro fuel
  induction fuel with
  | zero => intro st; exact le_rfl
  | succ m ih =>
    intro st
    rw [solveLoop]
    split_ifs with he
    · exact le_rfl
    · calc st.iters ≤ st.iters + 1 := Nat.le_succ _
        _ = (loopNext step n verbose printSkip st).iters :=
          (loopNext_iters step n verbose printSkip st).symm
        _ ≤ _ := ih _

lemma solveLoop_iters_le :
    ∀ (fuel : ℕ) (st : LoopState Vg),
      (solveLoop step n tol verbose printSkip fuel st).iters ≤ st.iters + fuel := by
  intro fuel
  induction fuel with
  | zero => intro st; exact Nat.le_refl _
  | succ m ih =>
    intro st
    rw [solveLoop]
    split_ifs with he
    · exact Nat.le_add_right _ _
    · calc (solveLoop step n tol verbose printSkip m
          (loopNext step n verbose printSkip st)).iters
          ≤ (loopNext step n verbose printSkip st).iters + m := ih _
        _ = st.iters + (m + 1) := by rw [loopNext_iters]; omega

lemma solveLoop_term :
    ∀ (fuel : ℕ) (st : LoopState Vg),
      (solveLoop step n tol verbose printSkip fuel st).iters = st.iters + fuel ∨
        (solveLoop step n tol verbose printSkip fuel st).error ≤ tol := by
  intro fuel
  induction fuel with
  | zero => intro st; exact Or.inl rfl
  | succ m ih =>
    intro st
    rw [solveLoop]
    split_ifs with he
    · exact Or.inr he
    · rcases ih (loopNext step n verbose printSkip st) with h | h
      · rw [loopNext_iters] at h
        exact Or.inl (by omega)
      · exact Or.inr h

lemma solveLoop_greedy_some :
    ∀ (fuel : ℕ) (st : LoopState Vg), st.greedy.isSome →
      (solveLoop step n tol verbose printSkip fuel st).greedy.isSome := by
  intro fuel
  induction fuel with
  | zero => intro st h; exact h
  | succ m ih =>
    intro st h
    rw [solveLoop]
    split_ifs with he
    · exact h
    · exact ih _ (by rw [loopNext_greedy]; rfl)

lemma solveLoop_log_sub :
    ∀ (fuel : ℕ) (st : LoopState Vg) (msg : Msg),
      msg ∈ (solveLoop step n tol verbose printSkip fuel st).log →
        msg ∈ st.log ∨ ∃ i e, msg = Msg.errorAt i e := by
  intro fuel
  induction fuel with
  | zero => intro st msg h; exact Or.inl h
  | succ m ih =>
    intro st msg h
    rw [solveLoop] at h
    split_ifs at h with he
    · exact Or.inl h
    · rcases ih _ msg h with h2 | h2
      · rcases loopNext_log_sub step n verbose printSkip h2 with h3 | h3
        · exact Or.inl h3
        · exact Or.inr h3
      · exact Or.inr h2

end SolveLemmas

/-- The exhaustion diagnostic `"Failed to converge!"` is printed exactly when
the final counter equals the iteration budget. -/
def exhaustionFlagged {Vg : Type} (res : SolveResult Vg) (maxIter : ℕ) : Prop :=
  Msg.failedToConverge ∈ res.log ↔ res.iters = maxIter

/-- The convergence line is printed exactly when `verbose` holds and the final
counter is strictly below the iteration budget, and it reports the final
counter. -/
def convergenceMsgIff {Vg : Type} (res : SolveResult Vg) (maxIter : ℕ)
    (verbose : Bool) : Prop :=
  ∀ m, Msg.convergedIn m ∈ res.log ↔
    (verbose = true ∧ res.iters < maxIter ∧ m = res.iters)

/-- The loop never stops while the sup-norm error still exceeds the
tolerance: every error value strictly before the final iteration exceeded
`tol`. -/
def noEarlyStop {Vg : Type} (step : VArr → Vg × VArr) (n : ℕ) (tol : ℚ)
    (v0 : VArr) (res : SolveResult Vg) : Prop :=
  ∀ j, 0 < j → j < res.iters →
    tol < supNorm n (vIter step (j - 1) v0) (vIter step j v0)

/-- Full characterization of `solve_model` for a positive iteration budget:
it returns the arrays of the last completed sweep, the counter stops at the
budget or at the first sup-norm at or below the tolerance (whichever first),
and the only indication of the termination cause is the printed log, whose
failure line appears exactly when the counter reached the budget. -/
lemma solve_model_characterization {Vg : Type} (step : VArr → Vg × VArr)
    (n : ℕ) (v0 : VArr) (maxIter : ℕ) (tol : ℚ) (verbose : Bool)
    (printSkip : ℕ) (hmi : 1 ≤ maxIter) :
    ∃ res : SolveResult Vg,
      solve_model step n v0 maxIter tol verbose printSkip = some res ∧
      1 ≤ res.iters ∧ res.iters ≤ maxIter ∧
      (res.iters < maxIter → res.error ≤ tol) ∧
      (res.iters = maxIter ∨ res.error ≤ tol) ∧
      res.value = vIter step res.iters v0 ∧
      res.greedy = (step (vIter step (res.iters - 1) v0)).1 ∧
      res.error = supNorm n (vIter step (res.iters - 1) v0) (vIter step res.iters v0) ∧
      noEarlyStop step n tol v0 res ∧
      exhaustionFlagged res maxIter ∧
      convergenceMsgIff res maxIter verbose := by
  obtain ⟨m, rfl⟩ : ∃ m, maxIter = m + 1 := ⟨maxIter - 1, by omega⟩
  set st0 : LoopState Vg := ⟨none, v0, 0, tol + 1, []⟩ with hst0
  set st := solveLoop step n tol verbose printSkip (m + 1) st0 with hst
  have h01 : ¬ (st0.error ≤ tol) := by
    show ¬ (tol + 1 ≤ tol)
    simp
  have hstep1 : st = solveLoop step n tol verbose printSkip m
      (loopNext step n verbose printSkip st0) := by
    rw [hst, solveLoop, if_neg h01]
  have hinv : LoopInv step n tol v0 st := by
    apply solveLoop_inv step n tol verbose printSkip (m + 1) st0
    refine ⟨rfl, fun h => absurd h (lt_irrefl 0), fun j hj0 hj => ?_⟩
    exact absurd (lt_of_lt_of_le hj0 (Nat.le_of_lt_succ (Nat.lt_succ_of_lt hj)))
      (by simp at hj)
  have hge : 1 ≤ st.iters := by
    rw [hstep1]
    calc 1 = (loopNext step n verbose printSkip st0).iters := by
          rw [loopNext_iters]
      _ ≤ _ := solveLoop_iters_ge step n tol verbose printSkip m _
  have hle : st.iters ≤ m + 1 := by
    have := solveLoop_iters_le step n tol verbose printSkip (m + 1) st0
    simpa using this
  have hterm : st.iters = m + 1 ∨ st.error ≤ tol := by
    have := solveLoop_term step n tol verbose printSkip (m + 1) st0
    simpa using this
  have hsome : st.greedy.isSome := by
    rw [hstep1]
    exact solveLoop_greedy_some step n tol verbose printSkip m _
      (by rw [loopNext_greedy]; rfl)
  have hlogE : ∀ msg ∈ st.log, ∃ i e, msg = Msg.errorAt i e := by
    intro msg hm
    rcases solveLoop_log_sub step n tol verbose printSkip (m + 1) st0 msg hm with h | h
    · exact absurd h (List.not_mem_nil msg)
    · exact h
  rcases Option.isSome_iff_exists.1 hsome with ⟨g, hg⟩
  have hgval : some g = some (step (vIter step (st.iters - 1) v0)).1 := by
    rw [← hg, (hinv.2.1 hge).1]
  set lg1 := if st.iters = m + 1 then
      st.log ++ [Msg.errorAt st.iters st.error, Msg.failedToConverge]
    else st.log with hlg1
  set lg2 := if verbose = true ∧ st.iters < m + 1 then
      lg1 ++ [Msg.convergedIn st.iters]
    else lg1 with hlg2
  have hfail : Msg.failedToConverge ∈ lg2 ↔ st.iters = m + 1 := by
    constructor
    · intro hmem
      rw [hlg2] at hmem
      split_ifs at hmem with hv
      · rcases List.mem_append.1 hmem with h | h
        · rw [hlg1] at h
          split_ifs at h with he
          · exact he
          · rcases hlogE _ h with ⟨i, e, h2⟩
            simp at h2
        · simp at h
      · rw [hlg1] at hmem
        split_ifs at hmem with he
        · exact he
        · rcases hlogE _ hmem with ⟨i, e, h2⟩
          simp at h2
    · intro heq
      have hnlt : ¬ (verbose = true ∧ st.iters < m + 1) := by
        rintro ⟨_, h⟩
        omega
      rw [hlg2, if_neg hnlt, hlg1, if_pos heq]
      simp
  have hconv : ∀ k, Msg.convergedIn k ∈ lg2 ↔
      (verbose = true ∧ st.iters < m + 1 ∧ k = st.iters) := by
    intro k
    constructor
    · intro hmem
      rw [hlg2] at hmem
      split_ifs at hmem with hv
      · rcases List.mem_append.1 hmem with h | h
        · exfalso
          rw [hlg1] at h
          split_ifs at h with he
          · rcases List.mem_append.1 h with h3 | h3
            · rcases hlogE _ h3 with ⟨i, e, h2⟩
              simp at h2
            · simp at h3
          · rcases hlogE _ h with ⟨i, e, h2⟩
            simp at h2
        · exact ⟨hv.1, hv.2, Msg.convergedIn.inj (List.mem_singleton.1 h)⟩
      · exfalso
        rw [hlg1] at hmem
        split_ifs at hmem with he
        · rcases List.mem_append.1 hmem with h3 | h3
          · rcases hlogE _ h3 with ⟨i, e, h2⟩
            simp at h2
          · simp at h3
        · rcases hlogE _ hmem with ⟨i, e, h2⟩
          simp at h2
    · rintro ⟨hv, hlt, rfl⟩
      rw [hlg2, if_pos ⟨hv, hlt⟩]
      simp
  refine ⟨⟨g, st.value, st.iters, st.error, lg2⟩, ?_, hge, hle, ?_, hterm,
    hinv.1, Option.some.inj hgval, (hinv.2.1 hge).2, hinv.2.2, hfail, hconv⟩
  · show (solveLoop step n tol verbose printSkip (m + 1) st0).greedy.map _ = _
    rw [← hst, hg]
    rfl
  · intro hlt
    have hlt2 : st.iters < m + 1 := hlt
    rcases hterm with h | h
    · omega
    · exact h

/-- `solve_model` fails to return (the local `v_greedy` of the notebook is
unbound at `return v_greedy, v_new`) precisely when the iteration budget is
zero: the initial error is `tol + 1 > tol`, so with any positive budget the
loop body runs at least once and binds `v_greedy`. -/
lemma solve_model_none_iff {Vg : Type} (step : VArr → Vg × VArr) (n : ℕ)
    (v0 : VArr) (maxIter : ℕ) (tol : ℚ) (verbose : Bool) (printSkip : ℕ) :
    solve_model step n v0 maxIter tol verbose printSkip = none ↔ maxIter = 0 := by
  constructor
  · intro h
    by_contra hne
    rcases solve_model_characterization step n v0 maxIter tol verbose printSkip
      (by omega) with ⟨res, hres, _⟩
    rw [h] at hres
    exact Option.noConfusion hres
  · rintro rfl
    rfl

/-! ## Claim C4: termination and reporting of the value-iteration loop -/

/-- C4, amended.  For any positive iteration budget the loop terminates with
a result: the counter stops at the budget or at the first sweep whose
sup-norm error is at or below the tolerance, whichever happens first
(`noEarlyStop` says no earlier error was at or below `tol`); the returned
value/policy arrays are those of the last completed sweep.  However the
termination cause is not returned as a flag: it is only printed, and the
`"Failed to converge!"` diagnostic is keyed solely on `iter == max_iter`
(`exhaustionFlagged`), so it is printed even when the final sweep already met
the tolerance; the convergence line additionally requires `verbose`
(`convergenceMsgIff`). -/
theorem C4_loop_termination {Vg : Type} (step : VArr → Vg × VArr) (n : ℕ)
    (v0 : VArr) (maxIter : ℕ) (tol : ℚ) (verbose : Bool) (printSkip : ℕ)
    (hmi : 1 ≤ maxIter) :
    ∃ res : SolveResult Vg,
      solve_model step n v0 maxIter tol verbose printSkip = some res ∧
      1 ≤ res.iters ∧ res.iters ≤ maxIter ∧
      (res.iters < maxIter → res.error ≤ tol) ∧
      (res.iters = maxIter ∨ res.error ≤ tol) ∧
      res.value = vIter step res.iters v0 ∧
      res.greedy = (step (vIter step (res.iters - 1) v0)).1 ∧
      res.error = supNorm n (vIter step (res.iters - 1) v0) (vIter step res.iters v0) ∧
      noEarlyStop step n tol v0 res ∧
      exhaustionFlagged res maxIter ∧
      convergenceMsgIff res maxIter verbose :=
  solve_model_characterization step n v0 maxIter tol verbose printSkip hmi

/-- A constant Bellman-step stand-in: greedy array `0`, value array unchanged. -/
def stepConst : VArr → ℚ × VArr := fun v => (0, v)

/-- The zero initial value array of the notebook. -/
def vZero : VArr := fun _ => 0

/-- Counterexample to C4 as stated.  With budget `max_iter = 1` and a step
that leaves the value array unchanged, the sweep converges exactly at the
budget: the final sup-norm error is `0`, at or below the tolerance `1e-3`.
The claimed explicit convergence/exhaustion flag does not exist: the call
returns only the arrays, and its printed record reports
`"Failed to converge!"` (and no convergence line) although the tolerance was
met, so no caller can branch on a faithful termination-cause flag. -/
theorem C4_counterexample :
    ∃ res : SolveResult ℚ,
      solve_model stepConst 1 vZero 1 (1/1000) true 5 = some res ∧
      res.error ≤ 1/1000 ∧
      Msg.failedToConverge ∈ res.log ∧
      ∀ m, Msg.convergedIn m ∉ res.log := by
  rcases solve_model_characterization stepConst 1 vZero 1 (1/1000) true 5
    (le_refl 1) with
    ⟨res, hres, hge, hle, _, _, _, _, herr, _, hfail, hconv⟩
  have hiters : res.iters = 1 := le_antisymm hle hge
  have hv1 : vIter stepConst 1 vZero = vZero := rfl
  have hsup : supNorm 1 vZero vZero = 0 := by
    have h : idxList 1 = [(0, 0, 0, 0)] := by decide
    simp [supNorm, h, vZero]
  have herr0 : res.error = 0 := by
    rw [herr, hiters, hv1]
    exact hsup
  refine ⟨res, hres, by rw [herr0]; norm_num, hfail.2 hiters, ?_⟩
  intro m hm
  rcases (hconv m).1 hm with ⟨_, hlt, _⟩
  omega

theorem C4_loop_termination_witness :
    1 ≤ 2 ∧
    (∃ res : SolveResult ℚ,
      solve_model stepConst 1 vZero 2 (1/1000) true 5 = some res ∧
      1 ≤ res.iters ∧ res.iters ≤ 2 ∧
      (res.iters < 2 → res.error ≤ 1/1000) ∧
      (res.iters = 2 ∨ res.error ≤ 1/1000) ∧
      res.value = vIter stepConst res.iters vZero ∧
      res.greedy = (stepConst (vIter stepConst (res.iters - 1) vZero)).1 ∧
      res.error = supNorm 1 (vIter stepConst (res.iters - 1) vZero)
        (vIter stepConst res.iters vZero) ∧
      noEarlyStop stepConst 1 (1/1000) vZero res ∧
      exhaustionFlagged res 2 ∧
      convergenceMsgIff res 2 true) :=
  ⟨by norm_num, C4_loop_termination stepConst 1 vZero 2 (1/1000) true 5 (by norm_num)⟩

/-! ## Claim C8: configuration validation -/

/-- Counterexample to C8 as stated.  `Model(u, f, grid_size = 1)` succeeds
(the constructor performs no validation: the grids are built and their single
point is `1e-4`), a negative tolerance is likewise accepted, and a zero
iteration budget is not rejected at construction anywhere — instead the
solver itself fails at solve time (`none`, modelling the unbound `v_greedy`
at the `return` statement of `solve_model`). -/
theorem C8_counterexample :
    (mkModel (α := ℚ) 1).1 0 = 1/10000 ∧
    (mkModel (α := ℚ) 1).2 0 = 1/10000 ∧
    solve_model stepConst 1 vZero 0 (1/1000) true 5 = none ∧
    solve_model stepConst 1 vZero 1 (-1) true 5 ≠ none := by
  refine ⟨?_, ?_, ?_, ?_⟩
  · norm_num [mkModel, linspace]
  · norm_num [mkModel, linspace]
  · exact (solve_model_none_iff stepConst 1 vZero 0 (1/1000) true 5).2 rfl
  · intro h
    have := (solve_model_none_iff stepConst 1 vZero 1 (-1) true 5).1 h
    omega

/-- C8, amended.  Nothing is validated at construction time: `Model.__init__`
is a total function of `grid_size` (it just builds the two grids), and
`solve_model` accepts every tolerance and budget.  The only fatal failure is
at solve time: `solve_model` fails to produce a result exactly when the
iteration budget is `0` (the notebook raises an unbound-local error at the
`return` statement then); any positive budget returns a result for every
tolerance, including non-positive ones. -/
theorem C8_no_validation :
    (∀ gs : ℕ, (mkModel (α := ℚ) gs).1 0 = 1/10000 ∧
      (mkModel (α := ℚ) gs).2 0 = 1/10000) ∧
    ∀ (Vg : Type) (step : VArr → Vg × VArr) (n : ℕ) (v0 : VArr)
      (maxIter : ℕ) (tol : ℚ) (verbose : Bool) (printSkip : ℕ),
      (solve_model step n v0 maxIter tol verbose printSkip = none ↔ maxIter = 0) := by
  constructor
  · intro gs
    constructor <;> norm_num [mkModel, linspace]
  · intro Vg step n v0 maxIter tol verbose printSkip
    exact solve_model_none_iff step n v0 maxIter tol verbose printSkip

/-! ## The SIR model and the cost model (over `ℝ`)

Helper functions of the notebook.  States are `2×2` matrices
`[[S_y, S_o], [I_y, I_o]]`, controls are 2-vectors of lockdown levels. -/

section Helpers

variable {α : Type} [LinearOrderedField α]

/-- `indir(L_curr) = alpha_L * L_curr`: death rate caused indirectly by the
lockdown level. -/
def indir (L_curr : Fin 2 → α) : Fin 2 → α := fun g => alpha_L * L_curr g

/-- `empl(L_e) = alpha_E * w * L_e`: rate of future unemployment. -/
def empl (L_e : Fin 2 → α) : Fin 2 → α := fun g => alpha_E * w g * L_e g

/-- `ICU(I_i) = np.maximum(0, (np.sum(I_i * iota) - ICU_max) * eta)`: penalty
for exceeding ICU capacity. -/
def ICU (I_i : Fin 2 → α) : α :=
  max 0 (((∑ g, I_i g * iota g) - ICU_max) * eta)

/-- `phi(I_p) = a + b * np.sum(I_p)` with the CDC-based coefficient vectors:
per-group death rate as a function of the total infection level. -/
def phi (I_p : Fin 2 → α) : Fin 2 → α :=
  let I_total := ∑ j, I_p j
  let a : Fin 2 → α := ![634/1000000 * gamma, 845/100000 * gamma]
  let b : Fin 2 → α := ![845/100000 * gamma, 1127/10000 * gamma]
  fun g => a g + b g * I_total

end Helpers

/-- `betaBSIR(I_b) = beta_0 * exp(-alpha_I * np.sum(I_b)) * rho` with
`rho = [[1, rho_0], [rho_0, 1]]`: behavioral transmission matrix. -/
noncomputable def betaBSIR (I_b : Fin 2 → ℝ) : Fin 2 → Fin 2 → ℝ :=
  let beta := beta_0 * Real.exp (-alpha_I * (∑ g, I_b g))
  let rho : Fin 2 → Fin 2 → ℝ := ![![1, rho_0], ![rho_0, 1]]
  fun i j => beta * rho i j

/-- The SIR dynamics of the notebook: one Euler step of the behavioral SIR
system followed by the clamping of the new susceptible fraction into
`[1e-4 + 1e-5, 1]`, the new infected fraction into `[1e-4 + 1e-5, 0.5]`, the
new recovered fraction into `[1e-4 + 1e-5, 1]` and the new death increment
into `[0, 1]` (each by `np.minimum` with the upper bound, then `np.maximum`
with the lower bound).  Returns `(S_new, I_new, R_new, D_new)`. -/
noncomputable def dynamics (L_d : Fin 2 → ℝ) (state : Fin 2 → Fin 2 → ℝ) :
    (Fin 2 → ℝ) × (Fin 2 → ℝ) × (Fin 2 → ℝ) × (Fin 2 → ℝ) :=
  let S_d := state 0
  let I_d := state 1
  let R_d := fun g => P g - (S_d g + I_d g)
  let beta := betaBSIR I_d
  let deathRate := phi I_d
  let indirDeath := indir L_d
  let recoveryRate := fun g => gamma * 1 - deathRate g
  let sum_I := fun g => ∑ j, beta g j * ((1 - theta * L_d j) * I_d j)
  let dI := fun g => sum_I g * (1 - theta * L_d g) * S_d g - gamma * I_d g
  let dS := fun g => -dI g - gamma * I_d g - indirDeath g * S_d g
  let dR := fun g => recoveryRate g * I_d g - indirDeath g * R_d g
  let dD := fun g => deathRate g * I_d g + indirDeath g * (S_d g + R_d g)
  let D_new := fun g => max (min (dt * dD g) 1) 0
  let S_new := fun g =>
    max (min ((S_d g + dt * dS g) / (1 - D_new g)) 1) (1/10000 + 1/100000)
  let I_new := fun g =>
    max (min ((I_d g + dt * dI g) / (1 - D_new g)) (1/2)) (1/10000 + 1/100000)
  let R_new := fun g =>
    max (min ((R_d g + dt * dR g) / (1 - D_new g)) 1) (1/10000 + 1/100000)
  (S_new, I_new, R_new, D_new)

/-- The social/welfare cost of the notebook.  When the total infection mass
is zero the cost is `0`; otherwise it is `np.sum` of the per-group lost
salary, COVID-death, non-COVID-death and future-unemployment terms.  The
notebook line `+ ICU(I_c)` stands after the closing parenthesis of `np.sum`
on a fresh line, so it is a standalone expression statement whose value is
discarded and never enters the returned scalar (see claim C10). -/
noncomputable def cost (L_c : Fin 2 → ℝ) (state : Fin 2 → Fin 2 → ℝ) : ℝ :=
  let S_c := state 0
  let I_c := state 1
  let R_c := fun g => P g - (S_c g + I_c g)
  if (∑ g, I_c g) = 0 then 0
  else
    ∑ g, (w g * L_c g * (1 - wfh) * (S_c g + I_c g + p * R_c g)
      + ((chi g + w g) / ir * (1 - Real.exp (-ir * career g))) * phi I_c g * I_c g
      + (w g / ir * (1 - Real.exp (-ir * career g))) * indir L_c g * (F + S_c g + R_c g)
      + empl L_c g * (S_c g + R_c g))

/-! ## The interpolator and the per-cell objective -/

section Interp

variable {α : Type} [LinearOrderedField α]

/-- Modelled from the spec: the enclosing-cell search of the multilinear
interpolator (`scipy.interpolate.RegularGridInterpolator`, which is not part
of this repository): the largest axis index `m < n - 1` with
`grid m ≤ x` (`0` if none). -/
def cellIdx (grid : ℕ → α) (n : ℕ) (x : α) : ℕ :=
  (List.range (n - 1)).foldl (fun acc m => if grid m ≤ x then m else acc) 0

/-- Modelled from the spec: linear blending along one axis at the enclosing
cell. -/
def lerpAt (grid : ℕ → α) (n : ℕ) (x : α) (f : ℕ → α) : α :=
  let i := cellIdx grid n x
  let t := (x - grid i) / (grid (i + 1) - grid i)
  (1 - t) * f i + t * f (i + 1)

/-- Modelled from the spec: quadrilinear interpolation of a 4-D array on the
Cartesian product of four axes, blending the 16 enclosing corner values
(nested 1-D linear blends). -/
def interp4 (g0 g1 g2 g3 : ℕ → α) (n : ℕ) (A : ℕ → ℕ → ℕ → ℕ → α)
    (x0 x1 x2 x3 : α) : α :=
  lerpAt g0 n x0 fun i => lerpAt g1 n x1 fun j =>
    lerpAt g2 n x2 fun k => lerpAt g3 n x3 fun l => A i j k l

/-- The interpolation query of a coordinate is in-domain for an axis when it
lies between the first and the last grid point (outside,
`RegularGridInterpolator` raises the out-of-domain error). -/
def inGridDomain (grid : ℕ → α) (n : ℕ) (x : α) : Prop :=
  grid 0 ≤ x ∧ x ≤ grid (n - 1)

lemma linspace_zero (a b : α) (n : ℕ) : linspace a b n 0 = a := by
  simp [linspace]

lemma linspace_last (a b : α) {n : ℕ} (hn : 2 ≤ n) :
    linspace a b n (n - 1) = b := by
  unfold linspace
  have h1 : ((n - 1 : ℕ) : α) = (n : α) - 1 := by
    have : (1 : ℕ) ≤ n := by omega
    push_cast [this]
    ring
  have h2 : (n : α) - 1 ≠ 0 := by
    have h3 : (2 : α) ≤ (n : α) := by exact_mod_cast hn
    intro h
    rw [sub_eq_zero] at h
    rw [h] at h3
    norm_num at h3
  have h4 : ((n : α) - 1) * (b - a) / ((n : α) - 1) = b - a := by
    rw [mul_comm, mul_div_assoc, div_self h2, mul_one]
  rw [h1, h4]
  ring

end Interp

/-- `Model.obj_func(c, y, v_array)`: build the quadrilinear interpolator `v`
of `v_array` on the grids `(gridS, gridS, gridI, gridI)`, compute the next
state `(s0, i0, r0, d0) = f(c, y)`, and return
`u(c, y) * dt + exp(-(nu + ir) * dt) * v(concat(s0, i0))`.  `u` and `f` are
the injected cost and transition collaborators of the `Model` class. -/
noncomputable def obj_func
    (u : (Fin 2 → ℝ) → (Fin 2 → Fin 2 → ℝ) → ℝ)
    (f : (Fin 2 → ℝ) → (Fin 2 → Fin 2 → ℝ) →
      (Fin 2 → ℝ) × (Fin 2 → ℝ) × (Fin 2 → ℝ) × (Fin 2 → ℝ))
    (grid_size : ℕ) (c : Fin 2 → ℝ) (y : Fin 2 → Fin 2 → ℝ)
    (v_array : ℕ → ℕ → ℕ → ℕ → ℝ) : ℝ :=
  let gridS := (mkModel (α := ℝ) grid_size).1
  let gridI := (mkModel (α := ℝ) grid_size).2
  let v := fun q : ℝ × ℝ × ℝ × ℝ =>
    interp4 gridS gridS gridI gridI grid_size v_array q.1 q.2.1 q.2.2.1 q.2.2.2
  let s0 := (f c y).1
  let i0 := (f c y).2.1
  u c y * dt + Real.exp (-(nu + ir) * dt) * v (s0 0, s0 1, i0 0, i0 1)

/-! ## Claim C3: the per-cell objective -/

/-- C3.  For every injected cost `u` and transition model `f`, every control,
state and previous value array, the per-cell objective of the Bellman sweep
equals `instantaneous_cost * Δt` plus the discount factor
`exp(-(ν + r) Δt)` times the quadrilinear interpolation of the previous
value array at the susceptible/infected coordinates of the state returned by
the transition model (the first two components `s0, i0` of its 4-tuple, in
the array order `S_y, S_o, I_y, I_o`). -/
theorem C3_objective_formula
    (u : (Fin 2 → ℝ) → (Fin 2 → Fin 2 → ℝ) → ℝ)
    (f : (Fin 2 → ℝ) → (Fin 2 → Fin 2 → ℝ) →
      (Fin 2 → ℝ) × (Fin 2 → ℝ) × (Fin 2 → ℝ) × (Fin 2 → ℝ))
    (grid_size : ℕ) (c : Fin 2 → ℝ) (y : Fin 2 → Fin 2 → ℝ)
    (v_array : ℕ → ℕ → ℕ → ℕ → ℝ) :
    obj_func u f grid_size c y v_array =
      u c y * dt + Real.exp (-(nu + ir) * dt) *
        interp4 (mkModel (α := ℝ) grid_size).1 (mkModel (α := ℝ) grid_size).1
          (mkModel (α := ℝ) grid_size).2 (mkModel (α := ℝ) grid_size).2
          grid_size v_array
          ((f c y).1 0) ((f c y).1 1) ((f c y).2.1 0) ((f c y).2.1 1) := rfl

/-! ## Claim C5: the fixed initial guess of the bounded minimization -/

/-- The initial guess `np.array([0, 1])` hard-coded in `minimize_wrap`. -/
def x0_init : Fin 2 → ℝ := ![0, 1]

/-- `minimize_wrap(g, bds, args)`: build `objective = lambda x: g(x, *args)`
and call the external optimizer (modelled by the parameter `minimize`, which
stands for `scipy.optimize.minimize` with the fixed method and no Jacobian)
on it with the hard-coded initial guess `np.array([0, 1])` and the bounds. -/
def minimize_wrap {A : Type}
    (minimize : ((Fin 2 → ℝ) → ℝ) → (Fin 2 → ℝ) → List (ℝ × ℝ) → (Fin 2 → ℝ) × ℝ)
    (g : (Fin 2 → ℝ) → A → ℝ) (bds : List (ℝ × ℝ)) (args : A) :
    (Fin 2 → ℝ) × ℝ :=
  minimize (fun x => g x args) x0_init bds

/-- Counterexample to C5 as stated.  The hard-coded initial guess of
`minimize_wrap` is `np.array([0, 1])`: its first component is `0`, which is
neither the box lower bound `ε = 1e-4` nor the first component `0.7` of
`control_max`, and it even lies strictly below the lower bound of the control
box, so the search does not start at the claimed corner `(ε, control_max)`. -/
theorem C5_counterexample :
    x0_init 0 = 0 ∧ x0_init 0 ≠ 1/10000 ∧ x0_init 0 ≠ L_max 0 ∧
      x0_init 0 < 1/10000 := by
  refine ⟨by simp [x0_init], ?_, ?_, ?_⟩
  · simp [x0_init]
  · simp [x0_init, L_max]
    norm_num
  · simp [x0_init]

/-- C5, amended.  The bounded minimization of the per-cell objective is
started from the fixed initial guess `np.array([0, 1])` — independent of the
cell and of the previous iterate, both of which only enter through `args` —
whose second component sits at the upper bound `control_max_2 = 1` of the box
while the first component is `0`, strictly below the box lower bound
`ε = 1e-4` (the optimizer clips it before searching). -/
theorem C5_fixed_initial_guess :
    (∀ (A : Type)
      (minimize : ((Fin 2 → ℝ) → ℝ) → (Fin 2 → ℝ) → List (ℝ × ℝ) → (Fin 2 → ℝ) × ℝ)
      (g : (Fin 2 → ℝ) → A → ℝ) (bds : List (ℝ × ℝ)) (a b : A),
      minimize_wrap minimize g bds a = minimize (fun x => g x a) x0_init bds ∧
      minimize_wrap minimize g bds b = minimize (fun x => g x b) x0_init bds) ∧
    x0_init 0 = 0 ∧ x0_init 1 = 1 ∧ x0_init 1 = L_max 1 ∧
    x0_init 0 < 1/10000 := by
  refine ⟨fun A minimize g bds a b => ⟨rfl, rfl⟩, by simp [x0_init], by simp [x0_init],
    ?_, ?_⟩
  · simp [x0_init, L_max]
  · simp [x0_init]

/-! ## Claim C7: the transition model clamps into the grid domain -/

/-- C7.  For every control vector and every input state whatsoever, the
transition model returns susceptible coordinates inside `[1e-4, 1]` and
infected coordinates inside `[1e-4, 0.5]` (the notebook clamps by
`np.minimum` with the axis maximum and `np.maximum` with `1e-4 + 1e-5`, which
lies above the grid floor `1e-4`), hence for every grid size at least `2` the
interpolation query made from the next state inside the per-cell objective is
in-domain on all four axes and the out-of-domain error branch of the
interpolator is unreachable during the solving sweep. -/
theorem C7_transition_clamped (L_d : Fin 2 → ℝ) (state : Fin 2 → Fin 2 → ℝ)
    (n : ℕ) (g : Fin 2) (hn : 2 ≤ n) :
    (1/10000 ≤ (dynamics L_d state).1 g ∧ (dynamics L_d state).1 g ≤ 1) ∧
    (1/10000 ≤ (dynamics L_d state).2.1 g ∧ (dynamics L_d state).2.1 g ≤ 1/2) ∧
    inGridDomain (mkModel (α := ℝ) n).1 n ((dynamics L_d state).1 g) ∧
    inGridDomain (mkModel (α := ℝ) n).2 n ((dynamics L_d state).2.1 g) := by
  obtain ⟨x, hx⟩ : ∃ x, (dynamics L_d state).1 g =
      max (min x 1) (1/10000 + 1/100000) := ⟨_, rfl⟩
  obtain ⟨y, hy⟩ : ∃ y, (dynamics L_d state).2.1 g =
      max (min y (1/2)) (1/10000 + 1/100000) := ⟨_, rfl⟩
  have hS1 : 1/10000 ≤ (dynamics L_d state).1 g := by
    rw [hx]
    exact le_trans (by norm_num) (le_max_right _ _)
  have hS2 : (dynamics L_d state).1 g ≤ 1 := by
    rw [hx]
    exact max_le (min_le_right _ _) (by norm_num)
  have hI1 : 1/10000 ≤ (dynamics L_d state).2.1 g := by
    rw [hy]
    exact le_trans (by norm_num) (le_max_right _ _)
  have hI2 : (dynamics L_d state).2.1 g ≤ 1/2 := by
    rw [hy]
    exact max_le (min_le_right _ _) (by norm_num)
  have h5 : (mkModel (α := ℝ) n).1 0 = 1/10000 := linspace_zero _ _ _
  have h6 : (mkModel (α := ℝ) n).1 (n - 1) = 1 := linspace_last _ _ hn
  have h7 : (mkModel (α := ℝ) n).2 0 = 1/10000 := linspace_zero _ _ _
  have h8 : (mkModel (α := ℝ) n).2 (n - 1) = 1/2 := linspace_last _ _ hn
  exact ⟨⟨hS1, hS2⟩, ⟨hI1, hI2⟩,
    ⟨by rw [h5]; exact hS1, by rw [h6]; exact hS2⟩,
    ⟨by rw [h7]; exact hI1, by rw [h8]; exact hI2⟩⟩

/-- The zero control vector. -/
def zeroControl : Fin 2 → ℝ := fun _ => 0

/-- The zero state matrix. -/
def zeroState : Fin 2 → Fin 2 → ℝ := fun _ _ => 0

theorem C7_transition_clamped_witness :
    2 ≤ 2 ∧
    ((1/10000 ≤ (dynamics zeroControl zeroState).1 0 ∧
      (dynamics zeroControl zeroState).1 0 ≤ 1) ∧
     (1/10000 ≤ (dynamics zeroControl zeroState).2.1 0 ∧
      (dynamics zeroControl zeroState).2.1 0 ≤ 1/2) ∧
     inGridDomain (mkModel (α := ℝ) 2).1 2 ((dynamics zeroControl zeroState).1 0) ∧
     inGridDomain (mkModel (α := ℝ) 2).2 2 ((dynamics zeroControl zeroState).2.1 0)) :=
  ⟨by norm_num, C7_transition_clamped zeroControl zeroState 2 0 (by norm_num)⟩

/-! ## Claims C9 and C10: the cost model -/

/-- The lost-salary term of the cost: `w*L*(1-wfh)*(S + I + p*R)` summed over
the groups. -/
noncomputable def lostSalaryTerm (L_c : Fin 2 → ℝ) (state : Fin 2 → Fin 2 → ℝ) : ℝ :=
  ∑ g, w g * L_c g * (1 - wfh) *
    (state 0 g + state 1 g + p * (P g - (state 0 g + state 1 g)))

/-- The COVID-death term of the cost:
`((chi + w)/ir * (1 - exp(-ir*career))) * phi(I) * I` summed over the groups. -/
noncomputable def covidDeathTerm (state : Fin 2 → Fin 2 → ℝ) : ℝ :=
  ∑ g, ((chi g + w g) / ir * (1 - Real.exp (-ir * career g))) *
    phi (state 1) g * state 1 g

/-- The non-COVID-death term of the cost:
`(w/ir * (1 - exp(-ir*career))) * indir(L) * (F + S + R)` summed over the
groups. -/
noncomputable def nonCovidDeathTerm (L_c : Fin 2 → ℝ)
    (state : Fin 2 → Fin 2 → ℝ) : ℝ :=
  ∑ g, (w g / ir * (1 - Real.exp (-ir * career g))) * indir L_c g *
    (F + state 0 g + (P g - (state 0 g + state 1 g)))

/-- The future-unemployment term of the cost: `empl(L)*(S + R)` summed over
the groups. -/
noncomputable def futureUnemploymentTerm (L_c : Fin 2 → ℝ)
    (state : Fin 2 → Fin 2 → ℝ) : ℝ :=
  ∑ g, empl L_c g * (state 0 g + (P g - (state 0 g + state 1 g)))

/-- The control used for concrete cost evaluations: `0.1` for both groups. -/
noncomputable def testControl : Fin 2 → ℝ := fun _ => 1/10

/-- The state used for concrete cost evaluations: every entry `0.1`. -/
noncomputable def testState : Fin 2 → Fin 2 → ℝ := fun _ _ => 1/10

/-- C10.  The cost is independent of the ICU penalty: for every control and
state it equals exactly the sum of the lost-salary, COVID-death,
non-COVID-death and future-unemployment terms (with the zero case when the
infection mass is zero), because the notebook line `+ ICU(I_c)` stands after
the closing parenthesis of `np.sum(...)` and is a discarded standalone
statement.  At the concrete state with all entries `0.1` the ICU penalty is
strictly positive, so adding it would change the returned scalar: the
discard is observable. -/
theorem C10_ICU_never_added :
    (∀ (L_c : Fin 2 → ℝ) (state : Fin 2 → Fin 2 → ℝ),
      cost L_c state = if (∑ g, state 1 g) = 0 then 0 else
        lostSalaryTerm L_c state + covidDeathTerm state +
          nonCovidDeathTerm L_c state + futureUnemploymentTerm L_c state) ∧
    0 < ICU (testState 1) ∧
    cost testControl testState ≠ cost testControl testState + ICU (testState 1) := by
  have hicu : 0 < ICU (testState 1) := by
    unfold ICU
    have h : (0:ℝ) <
        ((∑ g, testState 1 g * iota g) - ICU_max) * eta := by
      norm_num [Fin.sum_univ_two, testState, iota, ICU_max, eta]
    exact lt_max_of_lt_right h
  refine ⟨?_, hicu, ?_⟩
  · intro L_c state
    simp only [cost, lostSalaryTerm, covidDeathTerm, nonCovidDeathTerm,
      futureUnemploymentTerm]
    split_ifs with h
    · rfl
    · rw [← Finset.sum_add_distrib, ← Finset.sum_add_distrib,
        ← Finset.sum_add_distrib]
  · intro h
    linarith [hicu]

/-- The control box hypothesis of C9: each lockdown level within
`[1e-4, L_max i]`. -/
def inBoxL (L : Fin 2 → ℝ) : Prop := ∀ g, 1/10000 ≤ L g ∧ L g ≤ L_max g

/-- The state hypothesis of C9: non-negative entries. -/
def stateEntriesNonneg (state : Fin 2 → Fin 2 → ℝ) : Prop :=
  ∀ r g, 0 ≤ state r g

/-- The state hypothesis of C9: per-group column sums within the population
share plus the slack `0.02` used by the sweep. -/
def colSumsWithinSlack (state : Fin 2 → Fin 2 → ℝ) : Prop :=
  ∀ g, state 0 g + state 1 g ≤ P g + 2/100

/-- One group contribution of the cost sum is non-negative under the
admissibility hypotheses. -/
lemma cost_group_nonneg (L : Fin 2 → ℝ) (state : Fin 2 → Fin 2 → ℝ) (g : Fin 2)
    (hL : 1/10000 ≤ L g) (hS : 0 ≤ state 0 g) (hI : 0 ≤ state 1 g)
    (hIsum : 0 ≤ ∑ j, state 1 j)
    (hcs : state 0 g + state 1 g ≤ P g + 2/100) :
    0 ≤ w g * L g * (1 - wfh) *
        (state 0 g + state 1 g + p * (P g - (state 0 g + state 1 g)))
      + ((chi g + w g) / ir * (1 - Real.exp (-ir * career g))) *
        phi (state 1) g * state 1 g
      + (w g / ir * (1 - Real.exp (-ir * career g))) * indir L g *
        (F + state 0 g + (P g - (state 0 g + state 1 g)))
      + empl L g * (state 0 g + (P g - (state 0 g + state 1 g))) := by
  have hLg0 : (0:ℝ) ≤ L g := le_trans (by norm_num) hL
  have hw0 : (0:ℝ) ≤ w g := by fin_cases g <;> norm_num [w]
  have hP1 : (91/500 : ℝ) ≤ P g := by fin_cases g <;> norm_num [P]
  have hcar : (0:ℝ) ≤ career g := by fin_cases g <;> norm_num [career]
  have hchi : (0:ℝ) ≤ chi g := by fin_cases g <;> norm_num [chi]
  have hir : (0:ℝ) < ir := by norm_num [ir]
  have hE : Real.exp (-ir * career g) ≤ 1 := by
    have harg : (-ir * career g : ℝ) ≤ 0 := by
      nlinarith [mul_nonneg hir.le hcar]
    calc Real.exp (-ir * career g) ≤ Real.exp 0 := Real.exp_le_exp.2 harg
      _ = 1 := Real.exp_zero
  have hphi : 0 ≤ phi (state 1) g := by
    have h1 : (0:ℝ) ≤ state 1 0 + state 1 1 := by
      have h2 := hIsum
      rwa [Fin.sum_univ_two] at h2
    fin_cases g <;> simp [phi, gamma] <;> nlinarith [h1]
  have ht2 : 0 ≤ ((chi g + w g) / ir * (1 - Real.exp (-ir * career g))) *
      phi (state 1) g * state 1 g :=
    mul_nonneg (mul_nonneg (mul_nonneg
      (div_nonneg (by linarith) hir.le) (by linarith)) hphi) hI
  have hind : 0 ≤ indir L g := by
    have h1 : indir L g = alpha_L * L g := rfl
    rw [h1]
    have h2 : (0:ℝ) ≤ alpha_L := by norm_num [alpha_L]
    exact mul_nonneg h2 hLg0
  have hF3 : 0 ≤ F + state 0 g + (P g - (state 0 g + state 1 g)) := by
    norm_num [F]
    linarith [hcs, hS, hP1]
  have ht3 : 0 ≤ (w g / ir * (1 - Real.exp (-ir * career g))) * indir L g *
      (F + state 0 g + (P g - (state 0 g + state 1 g))) :=
    mul_nonneg (mul_nonneg (mul_nonneg
      (div_nonneg hw0 hir.le) (by linarith)) hind) hF3
  have ht1eq : w g * L g * (1 - wfh) *
      (state 0 g + state 1 g + p * (P g - (state 0 g + state 1 g))) =
      w g * L g * (1 - wfh) * P g := by
    simp only [p]
    ring
  have ht4eq : empl L g * (state 0 g + (P g - (state 0 g + state 1 g))) =
      alpha_E * w g * L g * (P g - state 1 g) := by
    simp only [empl]
    ring
  have hbr : 0 ≤ (1 - wfh) * P g + alpha_E * (P g - state 1 g) := by
    have hIle : state 1 g ≤ P g + 2/100 := by linarith
    norm_num [wfh, alpha_E]
    linarith [hP1, hIle]
  have h14 : 0 ≤ w g * L g * (1 - wfh) * P g +
      alpha_E * w g * L g * (P g - state 1 g) := by
    have hml : (0:ℝ) ≤ w g * L g := mul_nonneg hw0 hLg0
    nlinarith [mul_nonneg hml hbr]
  rw [ht1eq, ht4eq]
  linarith [ht2, ht3, h14]

/-- C9.  For every control within the box bounds and every state with
non-negative entries whose per-group column sums stay within the population
share plus the slack `0.02`, the instantaneous cost is non-negative, and it
is exactly `0` when the total infection mass is zero. -/
theorem C9_cost_nonneg (L : Fin 2 → ℝ) (state : Fin 2 → Fin 2 → ℝ)
    (hL : inBoxL L) (hnn : stateEntriesNonneg state)
    (hcs : colSumsWithinSlack state) :
    0 ≤ cost L state ∧ ((∑ g, state 1 g) = 0 → cost L state = 0) := by
  have hzero : (∑ g, state 1 g) = 0 → cost L state = 0 := by
    intro h
    simp [cost, h]
  refine ⟨?_, hzero⟩
  by_cases h0 : (∑ g, state 1 g) = 0
  · rw [hzero h0]
  · have hsum : (0:ℝ) ≤ ∑ j, state 1 j := Finset.sum_nonneg fun j _ => hnn 1 j
    have h1 := cost_group_nonneg L state 0 (hL 0).1 (hnn 0 0) (hnn 1 0) hsum (hcs 0)
    have h2 := cost_group_nonneg L state 1 (hL 1).1 (hnn 0 1) (hnn 1 1) hsum (hcs 1)
    simp only [cost]
    rw [if_neg h0, Fin.sum_univ_two]
    linarith [h1, h2]

theorem C9_cost_nonneg_witness :
    inBoxL testControl ∧ stateEntriesNonneg testState ∧
    colSumsWithinSlack testState ∧
    (0 ≤ cost testControl testState ∧
      ((∑ g, testState 1 g) = 0 → cost testControl testState = 0)) :=
  ⟨fun g => by fin_cases g <;> norm_num [testControl, L_max],
   fun r g => by norm_num [testState],
   fun g => by fin_cases g <;> norm_num [testState, P],
   C9_cost_nonneg testControl testState
     (fun g => by fin_cases g <;> norm_num [testControl, L_max])
     (fun r g => by norm_num [testState])
     (fun g => by fin_cases g <;> norm_num [testState, P])⟩

end BSIR
